import Mathlib

/-!
Verification of the chat retrieve-then-read orchestrator
(`chat-read-retrieve-read.ts`): the token-bounded conversation assembler
`getMessagesFromHistory`, the three-stage pipeline `baseRun`, and the two
output modes `run` / `runWithStreaming`.

The TypeScript is embedded shallowly: machine state that matters (the
`MessageBuilder`'s message array and token counter, the in-place
`Array.prototype.reverse` mutation of the `fewShots` argument) is made
explicit; external collaborators (the token meter, the completion service,
the search index) are parameters; the unguarded accesses
`history[history.length - 1].user` are embedded as `Option` binds.
-/

/-- A role/content chat message, as in `message.ts`. -/
structure Message where
  role : String
  content : String
deriving DecidableEq, Repr

/-- One conversational turn. Modelled from the spec: `HistoryMessage`
(`message.ts`) is not under src/; spec section 3 gives one turn "with
optional `user` text and optional `bot` (assistant) text". -/
structure HistoryMessage where
  user : Option String
  bot : Option String
deriving DecidableEq, Repr

/-- JavaScript truthiness of an optional string: `undefined` and the empty
string are falsy, every other string is truthy. -/
def truthy : Option String → Bool
  | none => false
  | some s => s ≠ ""

/-- JavaScript `array.splice(i, 0, m)`: insert `m` before position `i`,
appending at the end when `i` is at or past the length. -/
def splice_insert (l : List α) (i : Nat) (m : α) : List α :=
  l.take i ++ m :: l.drop i

/-- Builder state. Modelled from the spec: `MessageBuilder`
(`message-builder.ts`) is not under src/; per spec sections 4.2 and 9 it
starts from the system message at position 0, inserts role/content messages
at a caller-given index, and tracks the cumulative measured token cost of
its messages through the external Token Meter (`cost`). -/
structure MessageBuilder where
  messages : List Message
  tokens : Nat
deriving DecidableEq, Repr

/-- Modelled from the spec: the `MessageBuilder` constructor seeds the
message list with the system message and its measured cost. -/
def MessageBuilder.start (cost : Message → Nat) (systemContent : String) : MessageBuilder :=
  { messages := [{ role := "system", content := systemContent }],
    tokens := cost { role := "system", content := systemContent } }

/-- Modelled from the spec: `MessageBuilder.appendMessage(role, content, index)`
splices the new message in at `index` and adds its measured cost to the
running total. -/
def MessageBuilder.appendMessage (cost : Message → Nat) (b : MessageBuilder)
    (role content : String) (index : Nat) : MessageBuilder :=
  { messages := splice_insert b.messages index { role := role, content := content },
    tokens := b.tokens + cost { role := role, content := content } }

/-- The few-shot phase of `getMessagesFromHistory` (source line 195):
`for (const shot of shots) messageBuilder.appendMessage(shot.role, shot.content)`,
the default insertion index being 1. -/
def addFewShots (cost : Message → Nat) (b : MessageBuilder) (shots : List Message) :
    MessageBuilder :=
  shots.foldl (fun acc s => acc.appendMessage cost s.role s.content 1) b

/-- One iteration body of the history walk (source lines 203-208): insert the
turn's assistant text then its user text at `appendIndex`, each only when
truthy. -/
def insertTurn (cost : Message → Nat) (appendIndex : Nat) (b : MessageBuilder)
    (h : HistoryMessage) : MessageBuilder :=
  let b1 := if truthy h.bot then b.appendMessage cost "assistant" (h.bot.getD "") appendIndex else b
  if truthy h.user then b1.appendMessage cost "user" (h.user.getD "") appendIndex else b1

/-- The history walk of `getMessagesFromHistory` (source lines 202-212):
process turns in the given order, and after each processed turn stop as soon
as the running token total exceeds `maxTokens`. Returns the final builder and
the number of turns processed (each processed turn's messages were inserted,
the one that caused the overflow included). -/
def historyLoop (cost : Message → Nat) (appendIndex : Nat) (maxTokens : Int) :
    MessageBuilder → List HistoryMessage → MessageBuilder × Nat
  | b, [] => (b, 0)
  | b, h :: rest =>
    let b2 := insertTurn cost appendIndex b h
    if (b2.tokens : Int) > maxTokens then (b2, 1)
    else
      let r := historyLoop cost appendIndex maxTokens b2 rest
      (r.1, r.2 + 1)

/-- The builder state of `getMessagesFromHistory` just before the history
walk: system prompt, then the (already reversed) few-shots each inserted at
index 1, then the trailing user content at `appendIndex = fewShots.length + 1`
(source lines 191-200). -/
def preLoopBuilder (cost : Message → Nat) (systemPrompt userContent : String)
    (fewShots : List Message) : MessageBuilder :=
  (addFewShots cost (MessageBuilder.start cost systemPrompt) fewShots.reverse).appendMessage
    cost "user" userContent (fewShots.length + 1)

/-- The assembler core: run the history walk over `history.slice(0, -1).reverse()`
(source line 202) starting from `preLoopBuilder`. -/
def assembleCore (cost : Message → Nat) (systemPrompt : String)
    (history : List HistoryMessage) (userContent : String) (fewShots : List Message)
    (maxTokens : Int) : MessageBuilder × Nat :=
  historyLoop cost (fewShots.length + 1) maxTokens
    (preLoopBuilder cost systemPrompt userContent fewShots)
    (history.dropLast.reverse)

/-- `getMessagesFromHistory` (source lines 183-216): the assembled message
sequence. The final `map` to `{role, content}` records is the identity on
our `Message` type. -/
def getMessagesFromHistory (cost : Message → Nat) (systemPrompt : String)
    (history : List HistoryMessage) (userContent : String) (fewShots : List Message)
    (maxTokens : Int) : List Message :=
  (assembleCore cost systemPrompt history userContent fewShots maxTokens).1.messages

/-- Number of history turns the assembler included (iterations of the walk
that ran, source lines 202-212). -/
def includedTurns (cost : Message → Nat) (systemPrompt : String)
    (history : List HistoryMessage) (userContent : String) (fewShots : List Message)
    (maxTokens : Int) : Nat :=
  (assembleCore cost systemPrompt history userContent fewShots maxTokens).2

/-- `getMessagesFromHistory` with the caller-observable side effect made
explicit: `fewShots.reverse()` (source line 195) is JavaScript
`Array.prototype.reverse`, which reverses the caller's array in place, so a
call returns the assembled messages together with the new state of the
caller's `fewShots` array. -/
def getMessagesFromHistoryM (cost : Message → Nat) (systemPrompt : String)
    (history : List HistoryMessage) (userContent : String) (fewShots : List Message)
    (maxTokens : Int) : List Message × List Message :=
  (getMessagesFromHistory cost systemPrompt history userContent fewShots maxTokens,
    fewShots.reverse)

/-- The base system prompt template (source lines 14-20). -/
def SYSTEM_MESSAGE_CHAT_CONVERSATION : String :=
  "Assistant helps the Consto Real Estate company customers with support questions regarding terms of service, privacy policy, and questions about support requests. Be brief in your answers.\nAnswer ONLY with the facts listed in the list of sources below. If there isn\x27t enough information below, say you don\x27t know. Do not generate answers that don\x27t use the sources below. If asking a clarifying question to the user would help, ask the question.\nFor tabular information return it as an html table. Do not return markdown format. If the question is not in English, answer in the language used in the question.\nEach source has a name followed by colon and the actual information, always include the source name for each fact you use in the response. Use square brackets to reference the source, e.g. [info1.txt]. Don\x27t combine sources, list each source separately, e.g. [info1.txt][info2.pdf].\n{follow_up_questions_prompt}\n{injected_prompt}\n"

/-- The follow-up questions instruction block (source lines 22-25). -/
def FOLLOW_UP_QUESTIONS_PROMPT_CONTENT : String :=
  "Generate three very brief follow-up questions that the user would likely ask next about rentals.\nUse double angle brackets to reference the questions, e.g. <<Am I allowed to invite friends for a party?>>.\nTry not to repeat questions that have already been asked.\nOnly generate questions and do not generate any text before or after the questions, such as \x27Next Questions\x27"

/-- The query-generation system prompt (source lines 27-34). -/
def QUERY_PROMPT_TEMPLATE : String :=
  "Below is a history of the conversation so far, and a new question asked by the user that needs to be answered by searching in a knowledge base about terms of service, privacy policy, and questions about support requests.\nGenerate a search query based on the conversation and the new question.\nDo not include cited source filenames and document names e.g info.txt or doc.pdf in the search query terms.\nDo not include any text inside [] or <<>> in the search query terms.\nDo not include any special characters like \x27+\x27.\nIf the question is not in English, translate the question to English before generating the search query.\nIf you cannot generate a search query, return just the number 0.\n"

/-- The fixed query-rewrite few-shot examples (source lines 36-41). -/
def QUERY_PROMPT_FEW_SHOTS : List Message :=
  [{ role := "user", content := "What happens if a payment error occurs?" },
   { role := "assistant", content := "Show support for payment errors" },
   { role := "user", content := "can I get refunded if cannot travel?" },
   { role := "assistant", content := "Refund policy" }]

/-- Split a character list at the first occurrence of `pat`: the part before
it and the part after it, or `none` when `pat` does not occur. -/
def splitFirst (pat : List Char) : List Char → Option (List Char × List Char)
  | [] => if pat = [] then some ([], []) else none
  | c :: rest =>
    if pat.isPrefixOf (c :: rest) then some ([], (c :: rest).drop pat.length)
    else (splitFirst pat rest).map fun p => (c :: p.1, p.2)

/-- JavaScript `s.replace(pat, rep)` with a string pattern: only the first
occurrence of `pat` is replaced; `s` is returned unchanged when `pat` does
not occur. -/
def jsReplaceFirst (s pat rep : String) : String :=
  match splitFirst pat.data s.data with
  | none => s
  | some (pre, post) => String.mk (pre ++ rep.data ++ post)

/-- JavaScript `s.startsWith(pre)`. -/
def jsStartsWith (s pre : String) : Bool :=
  pre.data.isPrefixOf s.data

/-- JavaScript `s.trim()`: strip whitespace from both ends. -/
def jsTrim (s : String) : String :=
  String.mk (((s.data.dropWhile Char.isWhitespace).reverse.dropWhile
    Char.isWhitespace).reverse)

/-- Modelled from the spec: `messagesToString` (`message.ts`) is not under
src/; spec section 4.5 calls it "a flattened rendering" of the prompt
messages, used only inside the diagnostic `thoughts` string. -/
def messagesToString (messages : List Message) : String :=
  String.intercalate "\n\n" (messages.map fun m => m.role ++ ": " ++ m.content)

/-- The caller-supplied pipeline context (`ChatApproachContext`): the two
fields the embedded code reads. Generation temperature is passed through
untouched and never branches, so it is left out of the embedding. -/
structure ChatApproachContext where
  suggest_followup_questions : Bool
  prompt_template : Option String
deriving DecidableEq, Repr

/-- The outcome of `searchDocuments` (retrieval stage, an external
collaborator of this file's code): the effective query echo, the ranked
results, and the newline-joined evidence content block. -/
structure SearchOutcome where
  query : String
  results : List String
  content : String
deriving DecidableEq, Repr

/-- Shared tail of the three prompt-override branches (source lines 141-154):
the base template with the follow-up-questions placeholder replaced by
`followUp` and the injected-prompt placeholder replaced by `injected`. -/
def injectPrompt (followUp injected : String) : String :=
  jsReplaceFirst
    (jsReplaceFirst SYSTEM_MESSAGE_CHAT_CONVERSATION "{follow_up_questions_prompt}" followUp)
    "{injected_prompt}" injected

/-- System-prompt resolution (source lines 138-155): three branches on the
caller's `prompt_template` override. `promptOverride?.startsWith(...)` is
falsy when the override is absent; the middle branch tests JavaScript
truthiness, so an empty-string override falls to the last branch. -/
def resolveSystemMessage (followUp : String) (promptOverride : Option String) : String :=
  if (promptOverride.map fun p => jsStartsWith p ">>>").getD false then
    injectPrompt followUp ((promptOverride.getD "").drop 3 ++ "\n")
  else if truthy promptOverride then
    injectPrompt followUp (promptOverride.getD "")
  else
    injectPrompt followUp ""

/-- Everything `baseRun` (source lines 98-181) hands back, plus the two
intermediate values the spec constrains: the step-1 prompt messages and
the query text passed to `searchDocuments`. -/
structure BaseRunOut where
  queryMessages : List Message
  effectiveQuery : Option String
  systemMessage : String
  finalMessages : List Message
  dataPoints : List String
  thoughts : String
deriving DecidableEq, Repr

/-- The straight-line body of `baseRun` once the last turn's user text
`lastUser` has been read (source lines 99-180). -/
def baseRunBody (cost : Message → Nat) (chatGptModel : String) (chatGptTokenLimit : Int)
    (queryCompletionContent : Option String) (search : Option String → SearchOutcome)
    (history : List HistoryMessage) (context : Option ChatApproachContext)
    (lastUser : String) : BaseRunOut :=
  let userQuery := "Generate search query for: " ++ lastUser
  let messages := getMessagesFromHistory cost QUERY_PROMPT_TEMPLATE history userQuery
    QUERY_PROMPT_FEW_SHOTS (chatGptTokenLimit - (userQuery.length : Int))
  let queryText0 := queryCompletionContent.map jsTrim
  let queryText := if queryText0 = some "0" then some lastUser else queryText0
  let s := search queryText
  let followUpQuestionsPrompt :=
    if (context.map fun c => c.suggest_followup_questions).getD false then
      FOLLOW_UP_QUESTIONS_PROMPT_CONTENT
    else ""
  let promptOverride := context.bind fun c => c.prompt_template
  let systemMessage := resolveSystemMessage followUpQuestionsPrompt promptOverride
  let finalMessages := getMessagesFromHistory cost systemMessage history
    (lastUser ++ "\n\nSources:\n" ++ s.content) [] chatGptTokenLimit
  let messageToDisplay := messagesToString messages
  { queryMessages := messages
    effectiveQuery := queryText
    systemMessage := systemMessage
    finalMessages := finalMessages
    dataPoints := s.results
    thoughts := "Searched for:<br>" ++ s.query ++ "<br><br>Conversations:<br>" ++
      jsReplaceFirst messageToDisplay "\n" "<br>" }

/-- `baseRun` (source lines 98-181) as a function of its collaborators: the
token meter `cost`, the model token limit, the query-rewrite completion's
returned content (`queryCompletionContent`, null modelled as `none`), and
the search index (`search`). The unguarded reads of
`history[history.length - 1].user` (source lines 99, 125, 163) are embedded
as `Option` matches: the result is `none` exactly when there is no value to
read; otherwise it is `baseRunBody`, the straight-line remainder of the
stage. -/
def baseRunM (cost : Message → Nat) (chatGptModel : String) (chatGptTokenLimit : Int)
    (queryCompletionContent : Option String) (search : Option String → SearchOutcome)
    (history : List HistoryMessage) (context : Option ChatApproachContext) :
    Option BaseRunOut :=
  match history.getLast? with
  | none => none
  | some last =>
    match last.user with
    | none => none
    | some lastUser =>
      some (baseRunBody cost chatGptModel chatGptTokenLimit queryCompletionContent
        search history context lastUser)

/-- The single-shot response shape (source lines 69-73). -/
structure ApproachResponse where
  data_points : List String
  answer : String
  thoughts : String
deriving DecidableEq, Repr

/-- `run` (source lines 63-74): single-shot mode. `finalContent` is the
content of the blocking completion's first choice (null modelled as `none`,
defaulted to the empty string as in `?? ''`). -/
def runM (cost : Message → Nat) (chatGptModel : String) (chatGptTokenLimit : Int)
    (queryCompletionContent : Option String) (search : Option String → SearchOutcome)
    (finalContent : Option String) (history : List HistoryMessage)
    (context : Option ChatApproachContext) : Option ApproachResponse :=
  (baseRunM cost chatGptModel chatGptTokenLimit queryCompletionContent search history
      context).map fun r =>
    { data_points := r.dataPoints, answer := finalContent.getD "", thoughts := r.thoughts }

/-- One streamed chunk (source lines 88-92): evidence and diagnostics are
present only when attached, answer text always. -/
structure ApproachResponseChunk where
  data_points : Option (List String)
  thoughts : Option String
  answer : String
deriving DecidableEq, Repr

/-- The chunk loop of `runWithStreaming` (source lines 86-95): one output
chunk per completion delta, evidence and diagnostics attached only when the
running counter `id` is zero, answer text `chunk.choices[0].delta.content ?? ''`. -/
def streamChunks (dataPoints : List String) (thoughts : String) :
    Nat → List (Option String) → List ApproachResponseChunk
  | _, [] => []
  | id, d :: rest =>
    { data_points := if id = 0 then some dataPoints else none
      thoughts := if id = 0 then some thoughts else none
      answer := d.getD "" } :: streamChunks dataPoints thoughts (id + 1) rest

/-- `runWithStreaming` (source lines 76-96): streaming mode over a stream of
completion content deltas (`deltas`, null deltas modelled as `none`). -/
def runWithStreamingM (cost : Message → Nat) (chatGptModel : String)
    (chatGptTokenLimit : Int) (queryCompletionContent : Option String)
    (search : Option String → SearchOutcome) (deltas : List (Option String))
    (history : List HistoryMessage) (context : Option ChatApproachContext) :
    Option (List ApproachResponseChunk) :=
  (baseRunM cost chatGptModel chatGptTokenLimit queryCompletionContent search history
      context).map fun r =>
    streamChunks r.dataPoints r.thoughts 0 deltas

/-- A sample token meter instance used for concrete evaluations: the content
length of the message. Any meter is a valid collaborator; spec section 4.1
only asks for monotone growth, which concrete instances need not use. -/
def costLen : Message → Nat := fun m => m.content.length

/-- A trivial search-index collaborator for concrete evaluations. -/
def searchStub : Option String → SearchOutcome :=
  fun _ => { query := "", results := [], content := "" }

/-- Measured token cost the walk adds for one history turn. -/
def turnTokens (cost : Message → Nat) (h : HistoryMessage) : Nat :=
  (if truthy h.bot then cost { role := "assistant", content := h.bot.getD "" } else 0) +
  (if truthy h.user then cost { role := "user", content := h.user.getD "" } else 0)

/-- Number of messages the walk inserts for one history turn. -/
def turnCount (h : HistoryMessage) : Nat :=
  (if truthy h.bot then 1 else 0) + (if truthy h.user then 1 else 0)

/-- Cumulative token cost of a list of history turns. -/
def sumTokens (cost : Message → Nat) (l : List HistoryMessage) : Nat :=
  (l.map (turnTokens cost)).sum

/-- Total number of messages a list of history turns inserts. -/
def sumCount (l : List HistoryMessage) : Nat :=
  (l.map turnCount).sum

lemma splice_insert_length (l : List α) (i : Nat) (m : α) :
    (splice_insert l i m).length = l.length + 1 := by
  simp [splice_insert]
  omega

lemma splice_shape (x u m : Message) (fs mid : List Message) :
    splice_insert (x :: (fs ++ (mid ++ [u]))) (fs.length + 1) m
      = x :: (fs ++ (m :: (mid ++ [u]))) := by
  simp [splice_insert, List.take_succ_cons, List.drop_succ_cons,
    List.take_left, List.drop_left]

lemma appendMessage_shape (cost : Message → Nat) (b : MessageBuilder) (r c : String)
    (x u : Message) (fs mid : List Message)
    (hb : b.messages = x :: (fs ++ (mid ++ [u]))) :
    (b.appendMessage cost r c (fs.length + 1)).messages
      = x :: (fs ++ (({ role := r, content := c } :: mid) ++ [u])) := by
  simp only [MessageBuilder.appendMessage, hb, splice_shape, List.cons_append]

lemma insertTurn_shape (cost : Message → Nat) (b : MessageBuilder) (h : HistoryMessage)
    (x u : Message) (fs mid : List Message)
    (hb : b.messages = x :: (fs ++ (mid ++ [u]))) :
    ∃ mid', (insertTurn cost (fs.length + 1) b h).messages
      = x :: (fs ++ (mid' ++ [u])) := by
  unfold insertTurn
  cases hbot : truthy h.bot <;> cases huser : truthy h.user <;>
    simp only [Bool.false_eq_true, if_false, if_true, reduceIte]
  · exact ⟨mid, hb⟩
  · exact ⟨_, appendMessage_shape cost b _ _ x u fs mid hb⟩
  · exact ⟨_, appendMessage_shape cost b _ _ x u fs mid hb⟩
  · exact ⟨_, appendMessage_shape cost _ _ _ x u fs _
      (appendMessage_shape cost b _ _ x u fs mid hb)⟩

lemma historyLoop_shape (cost : Message → Nat) (mt : Int) (x u : Message)
    (fs : List Message) (l : List HistoryMessage) :
    ∀ (b : MessageBuilder) (mid : List Message),
      b.messages = x :: (fs ++ (mid ++ [u])) →
      ∃ mid', (historyLoop cost (fs.length + 1) mt b l).1.messages
        = x :: (fs ++ (mid' ++ [u])) := by
  induction l with
  | nil => exact fun b mid hb => ⟨mid, hb⟩
  | cons h t ih =>
    intro b mid hb
    obtain ⟨mid2, h2⟩ := insertTurn_shape cost b h x u fs mid hb
    simp only [historyLoop]
    split
    · exact ⟨mid2, h2⟩
    · exact ih _ mid2 h2

lemma addFewShots_messages (cost : Message → Nat) :
    ∀ (l : List Message) (b : MessageBuilder) (x : Message) (rest : List Message),
      b.messages = x :: rest →
      (addFewShots cost b l).messages = x :: (l.reverse ++ rest) := by
  intro l
  induction l with
  | nil =>
    intro b x rest hb
    simpa [addFewShots] using hb
  | cons s t ih =>
    intro b x rest hb
    have hmsg : (b.appendMessage cost s.role s.content 1).messages = x :: s :: rest := by
      simp [MessageBuilder.appendMessage, splice_insert, hb]
    have := ih (b.appendMessage cost s.role s.content 1) x (s :: rest) hmsg
    simpa [addFewShots, List.append_assoc] using this

lemma preLoop_messages (cost : Message → Nat) (systemPrompt userContent : String)
    (fewShots : List Message) :
    (preLoopBuilder cost systemPrompt userContent fewShots).messages
      = { role := "system", content := systemPrompt } ::
          (fewShots ++ ([] ++ [{ role := "user", content := userContent }])) := by
  have h1 := addFewShots_messages cost fewShots.reverse
    (MessageBuilder.start cost systemPrompt)
    { role := "system", content := systemPrompt } [] rfl
  simp only [List.reverse_reverse, List.append_nil] at h1
  simp only [preLoopBuilder, MessageBuilder.appendMessage, h1, splice_insert]
  have ht : ({ role := "system", content := systemPrompt } :: fewShots).take
      (fewShots.length + 1) = { role := "system", content := systemPrompt } :: fewShots := by
    simp [List.take_succ_cons]
  have hd : ({ role := "system", content := systemPrompt } :: fewShots).drop
      (fewShots.length + 1) = ([] : List Message) := by
    simp [List.drop_succ_cons]
  simp [ht, hd]

lemma getMessages_shape (cost : Message → Nat) (systemPrompt : String)
    (history : List HistoryMessage) (userContent : String) (fewShots : List Message)
    (maxTokens : Int) :
    ∃ mid, getMessagesFromHistory cost systemPrompt history userContent fewShots maxTokens
      = { role := "system", content := systemPrompt } ::
          (fewShots ++ (mid ++ [{ role := "user", content := userContent }])) :=
  historyLoop_shape cost maxTokens _ _ fewShots history.dropLast.reverse
    (preLoopBuilder cost systemPrompt userContent fewShots) []
    (preLoop_messages cost systemPrompt userContent fewShots)

lemma getMessages_head (cost : Message → Nat) (systemPrompt : String)
    (history : List HistoryMessage) (userContent : String) (fewShots : List Message)
    (maxTokens : Int) :
    (getMessagesFromHistory cost systemPrompt history userContent fewShots maxTokens).head?
      = some { role := "system", content := systemPrompt } := by
  obtain ⟨mid, h⟩ := getMessages_shape cost systemPrompt history userContent fewShots maxTokens
  rw [h]
  rfl

lemma getMessages_last (cost : Message → Nat) (systemPrompt : String)
    (history : List HistoryMessage) (userContent : String) (fewShots : List Message)
    (maxTokens : Int) :
    (getMessagesFromHistory cost systemPrompt history userContent fewShots
        maxTokens).getLast? = some { role := "user", content := userContent } := by
  obtain ⟨mid, h⟩ := getMessages_shape cost systemPrompt history userContent fewShots maxTokens
  rw [h, show ({ role := "system", content := systemPrompt } : Message) ::
      (fewShots ++ (mid ++ [{ role := "user", content := userContent }]))
    = ({ role := "system", content := systemPrompt } :: (fewShots ++ mid))
        ++ [{ role := "user", content := userContent }] by simp]
  exact List.getLast?_concat _

lemma getMessages_take (cost : Message → Nat) (systemPrompt : String)
    (history : List HistoryMessage) (userContent : String) (fewShots : List Message)
    (maxTokens : Int) :
    (getMessagesFromHistory cost systemPrompt history userContent fewShots maxTokens).take
        (fewShots.length + 1)
      = { role := "system", content := systemPrompt } :: fewShots := by
  obtain ⟨mid, h⟩ := getMessages_shape cost systemPrompt history userContent fewShots maxTokens
  rw [h]
  simp [List.take_succ_cons, List.take_left]

/-- C1: for every token meter, history and budget, the assembled sequence of
`getMessagesFromHistory` has the system prompt as its first element and the
trailing user content as its last element; neither is dropped or displaced. -/
theorem assembled_system_first_trailing_last (cost : Message → Nat) (systemPrompt : String)
    (history : List HistoryMessage) (userContent : String) (fewShots : List Message)
    (maxTokens : Int) :
    (getMessagesFromHistory cost systemPrompt history userContent fewShots maxTokens).head?
        = some { role := "system", content := systemPrompt }
      ∧ (getMessagesFromHistory cost systemPrompt history userContent fewShots
          maxTokens).getLast? = some { role := "user", content := userContent } :=
  ⟨getMessages_head cost systemPrompt history userContent fewShots maxTokens,
    getMessages_last cost systemPrompt history userContent fewShots maxTokens⟩

/-- C3: for every non-empty `fewShots` list, the assembled output places the
few-shot messages in their original forward order immediately after the
system prompt (positions 1 through `fewShots.length`), even though they are
iterated in reverse internally. -/
theorem fewshots_forward_order (cost : Message → Nat) (systemPrompt : String)
    (history : List HistoryMessage) (userContent : String) (fewShots : List Message)
    (maxTokens : Int) (hfs : fewShots ≠ []) :
    (getMessagesFromHistory cost systemPrompt history userContent fewShots maxTokens).take
        (fewShots.length + 1)
      = { role := "system", content := systemPrompt } :: fewShots :=
  getMessages_take cost systemPrompt history userContent fewShots maxTokens

/-- Witness for C3 at a concrete input: two few-shots, empty history. -/
theorem fewshots_forward_order_witness :
    (getMessagesFromHistory costLen "s" [] "u"
        [{ role := "user", content := "a" }, { role := "assistant", content := "b" }]
        5).take
        ([({ role := "user", content := "a" } : Message),
          { role := "assistant", content := "b" }].length + 1)
      = { role := "system", content := "s" } ::
          [{ role := "user", content := "a" }, { role := "assistant", content := "b" }] :=
  fewshots_forward_order costLen "s" [] "u"
    [{ role := "user", content := "a" }, { role := "assistant", content := "b" }] 5
    (by decide)

lemma sumTokens_cons (cost : Message → Nat) (h : HistoryMessage) (l : List HistoryMessage) :
    sumTokens cost (h :: l) = turnTokens cost h + sumTokens cost l := by
  simp [sumTokens]

lemma sumCount_cons (h : HistoryMessage) (l : List HistoryMessage) :
    sumCount (h :: l) = turnCount h + sumCount l := by
  simp [sumCount]

lemma insertTurn_tokens (cost : Message → Nat) (i : Nat) (b : MessageBuilder)
    (h : HistoryMessage) :
    (insertTurn cost i b h).tokens = b.tokens + turnTokens cost h := by
  unfold insertTurn turnTokens
  cases truthy h.bot <;> cases truthy h.user <;>
    simp [MessageBuilder.appendMessage, Nat.add_assoc]

lemma insertTurn_msg_length (cost : Message → Nat) (i : Nat) (b : MessageBuilder)
    (h : HistoryMessage) :
    (insertTurn cost i b h).messages.length = b.messages.length + turnCount h := by
  unfold insertTurn turnCount
  cases truthy h.bot <;> cases truthy h.user <;>
    simp [MessageBuilder.appendMessage, splice_insert_length, Nat.add_assoc]

lemma historyLoop_spec (cost : Message → Nat) (i : Nat) (mt : Int) :
    ∀ (l : List HistoryMessage) (b : MessageBuilder),
      (historyLoop cost i mt b l).2 ≤ l.length
      ∧ (historyLoop cost i mt b l).1.tokens
          = b.tokens + sumTokens cost (l.take (historyLoop cost i mt b l).2)
      ∧ (historyLoop cost i mt b l).1.messages.length
          = b.messages.length + sumCount (l.take (historyLoop cost i mt b l).2)
      ∧ (∀ j, 1 ≤ j → j < (historyLoop cost i mt b l).2 →
          ((b.tokens + sumTokens cost (l.take j) : Nat) : Int) ≤ mt)
      ∧ ((historyLoop cost i mt b l).2 < l.length →
          ((b.tokens + sumTokens cost (l.take (historyLoop cost i mt b l).2) : Nat) : Int)
            > mt) := by
  intro l
  induction l with
  | nil =>
    intro b
    refine ⟨Nat.le_refl 0, by simp [historyLoop, sumTokens], by simp [historyLoop, sumCount],
      fun j hj1 hj2 => absurd (Nat.lt_of_le_of_lt hj1 hj2) (by simp [historyLoop]),
      fun hlt => absurd hlt (by simp [historyLoop])⟩
  | cons h t ih =>
    intro b
    simp only [historyLoop]
    split
    case isTrue hgt =>
      refine ⟨Nat.succ_le_succ (Nat.zero_le _), ?_, ?_, fun j hj1 hj2 => by omega, fun _ => ?_⟩
      · simp [List.take_succ_cons, sumTokens_cons, sumTokens, insertTurn_tokens]
      · simp [List.take_succ_cons, sumCount_cons, sumCount, insertTurn_msg_length]
      · have ht := insertTurn_tokens cost i b h
        simp only [List.take_succ_cons, sumTokens_cons]
        simp only [List.take_zero, sumTokens, List.map_nil, List.sum_nil, Nat.add_zero] at *
        rw [show b.tokens + turnTokens cost h = (insertTurn cost i b h).tokens from ht.symm]
        exact hgt
    case isFalse hle =>
      obtain ⟨ih1, ih2, ih3, ih4, ih5⟩ := ih (insertTurn cost i b h)
      have htok := insertTurn_tokens cost i b h
      have hlen := insertTurn_msg_length cost i b h
      refine ⟨Nat.succ_le_succ ih1, ?_, ?_, ?_, ?_⟩
      · rw [List.take_succ_cons, sumTokens_cons, ih2, htok]
        omega
      · rw [List.take_succ_cons, sumCount_cons, ih3, hlen]
        omega
      · intro j hj1 hj2
        match j, hj1 with
        | 1, _ =>
          simp only [List.take_succ_cons, List.take_zero, sumTokens_cons]
          have : sumTokens cost ([] : List HistoryMessage) = 0 := by simp [sumTokens]
          rw [this]
          have hle' := Int.not_lt.mp hle
          rw [htok] at hle'
          omega
        | (j' + 2), _ =>
          have hj' : 1 ≤ j' + 1 := by omega
          have hlt' : j' + 1 < (historyLoop cost i mt (insertTurn cost i b h) t).2 := by omega
          have := ih4 (j' + 1) hj' hlt'
          rw [htok] at this
          rw [List.take_succ_cons, sumTokens_cons]
          push_cast at this ⊢
          omega
      · intro hlt
        simp only [List.length_cons] at hlt
        have := ih5 (by omega)
        rw [htok] at this
        rw [List.take_succ_cons, sumTokens_cons]
        push_cast at this ⊢
        omega

lemma preLoop_msg_length (cost : Message → Nat) (systemPrompt userContent : String)
    (fewShots : List Message) :
    (preLoopBuilder cost systemPrompt userContent fewShots).messages.length
      = fewShots.length + 2 := by
  rw [preLoop_messages]
  simp

/-- C2: the history walk is a stop-after-exceeding loop: it processes a
prefix of `history.slice(0, -1).reverse()`; every processed turn's messages
are physically in the output (the assembled length equals the pre-walk
length `fewShots.length + 2` plus the message count of all processed turns,
so the turn that caused the overflow is included); the walk only continues
past an earlier turn while the running total is still within `maxTokens`;
and it stops early only when the total, including the overflowing turn, has
strictly exceeded `maxTokens`. Exceeding the budget is a stopping condition,
never a failure: the assembler is a total function. -/
theorem history_stop_after_exceeding (cost : Message → Nat) (systemPrompt : String)
    (history : List HistoryMessage) (userContent : String) (fewShots : List Message)
    (maxTokens : Int) :
    includedTurns cost systemPrompt history userContent fewShots maxTokens
        ≤ history.dropLast.reverse.length
      ∧ (getMessagesFromHistory cost systemPrompt history userContent fewShots
            maxTokens).length
          = (fewShots.length + 2) + sumCount (history.dropLast.reverse.take
              (includedTurns cost systemPrompt history userContent fewShots maxTokens))
      ∧ (∀ j, 1 ≤ j →
          j < includedTurns cost systemPrompt history userContent fewShots maxTokens →
          (((preLoopBuilder cost systemPrompt userContent fewShots).tokens
              + sumTokens cost (history.dropLast.reverse.take j) : Nat) : Int) ≤ maxTokens)
      ∧ (includedTurns cost systemPrompt history userContent fewShots maxTokens
            < history.dropLast.reverse.length →
          (((preLoopBuilder cost systemPrompt userContent fewShots).tokens
              + sumTokens cost (history.dropLast.reverse.take
                  (includedTurns cost systemPrompt history userContent fewShots
                    maxTokens)) : Nat) : Int) > maxTokens) := by
  obtain ⟨h1, _, h3, h4, h5⟩ := historyLoop_spec cost (fewShots.length + 1) maxTokens
    history.dropLast.reverse (preLoopBuilder cost systemPrompt userContent fewShots)
  simp only [includedTurns, getMessagesFromHistory, assembleCore]
  exact ⟨h1, by rw [h3, preLoop_msg_length], h4, h5⟩

lemma historyLoop_mono (cost : Message → Nat) (i : Nat) (mt1 mt2 : Int)
    (hmt : mt1 ≤ mt2) :
    ∀ (l : List HistoryMessage) (b : MessageBuilder),
      (historyLoop cost i mt1 b l).2 ≤ (historyLoop cost i mt2 b l).2 := by
  intro l
  induction l with
  | nil => intro b; simp [historyLoop]
  | cons h t ih =>
    intro b
    simp only [historyLoop]
    by_cases h2 : ((insertTurn cost i b h).tokens : Int) > mt2
    · have h1 : ((insertTurn cost i b h).tokens : Int) > mt1 := lt_of_le_of_lt hmt h2
      rw [if_pos h1, if_pos h2]
    · by_cases h1 : ((insertTurn cost i b h).tokens : Int) > mt1
      · rw [if_pos h1, if_neg h2]
        exact Nat.succ_le_succ (Nat.zero_le _)
      · rw [if_neg h1, if_neg h2]
        exact Nat.succ_le_succ (ih _)

/-- C4: holding every other input fixed, enlarging the token budget never
decreases the number of history turns the assembler includes. -/
theorem included_turns_monotone (cost : Message → Nat) (systemPrompt : String)
    (history : List HistoryMessage) (userContent : String) (fewShots : List Message)
    (mt1 mt2 : Int) (hmt : mt1 ≤ mt2) :
    includedTurns cost systemPrompt history userContent fewShots mt1
      ≤ includedTurns cost systemPrompt history userContent fewShots mt2 :=
  historyLoop_mono cost (fewShots.length + 1) mt1 mt2 hmt history.dropLast.reverse
    (preLoopBuilder cost systemPrompt userContent fewShots)

/-- Witness for C4 at a concrete input: three history turns, budgets 0 and 9. -/
theorem included_turns_monotone_witness :
    includedTurns costLen "s"
        [{ user := some "u1", bot := some "b1" }, { user := some "u2", bot := none },
         { user := some "u3", bot := none }] "u" [] 0
      ≤ includedTurns costLen "s"
          [{ user := some "u1", bot := some "b1" }, { user := some "u2", bot := none },
           { user := some "u3", bot := none }] "u" [] 9 :=
  included_turns_monotone costLen "s"
    [{ user := some "u1", bot := some "b1" }, { user := some "u2", bot := none },
     { user := some "u3", bot := none }] "u" [] 0 9 (by decide)

/-- C5: the assembler is not pure at its interface: `fewShots.reverse()`
(source line 195) reverses the caller's array in place, so calling the
assembler twice with the very same `fewShots` list object (the second call
seeing the mutated state the first call left behind) yields two different
message sequences: the second call emits the few-shots in reversed order.
Concrete input: system prompt "s", empty history, trailing content "u",
`fewShots = [user "a", assistant "b"]`, budget 100. -/
theorem fewshots_inplace_reverse_bug :
    (getMessagesFromHistoryM costLen "s" [] "u"
        (getMessagesFromHistoryM costLen "s" [] "u"
            [{ role := "user", content := "a" }, { role := "assistant", content := "b" }]
            100).2 100).1
      ≠ (getMessagesFromHistoryM costLen "s" [] "u"
          [{ role := "user", content := "a" }, { role := "assistant", content := "b" }]
          100).1 := by
  decide

/-- C6 counterexample: with the query-rewrite completion returning the empty
string (empty after trimming) and last user text "hi", the query passed to
retrieval is the empty string, not "hi" as the claim requires: the code
(source line 123) falls back only on the exact sentinel "0". -/
theorem query_fallback_empty_cex :
    (baseRunM costLen "m" 100 (some "") searchStub
          [{ user := some "hi", bot := none }] none).map BaseRunOut.effectiveQuery
        = some (some "")
      ∧ (some "" : Option String) ≠ some "hi" := by
  constructor
  · rfl
  · decide

/-- C6 amended: the fallback to the last history turn's user text happens
exactly when the trimmed completion text is the sentinel "0"; any other
trimmed text — the empty string included — is passed to retrieval verbatim.
The fallback itself never fails. -/
theorem query_fallback_amended (cost : Message → Nat) (model : String) (limit : Int)
    (qc : Option String) (search : Option String → SearchOutcome)
    (history : List HistoryMessage) (ctx : Option ChatApproachContext) (u : String)
    (h : history.getLast?.bind HistoryMessage.user = some u) :
    ∃ r, baseRunM cost model limit qc search history ctx = some r
      ∧ (qc.map jsTrim = some "0" → r.effectiveQuery = some u)
      ∧ (qc.map jsTrim ≠ some "0" → r.effectiveQuery = qc.map jsTrim) := by
  obtain ⟨last, hlast, hu⟩ := Option.bind_eq_some.mp h
  simp only [baseRunM, hlast, hu]
  by_cases hq : qc.map jsTrim = some "0"
  · exact ⟨_, rfl, fun _ => by simp [baseRunBody, hq], fun hne => absurd hq hne⟩
  · exact ⟨_, rfl, fun heq => absurd heq hq, fun _ => by simp [baseRunBody, hq]⟩

/-- Witness for C6 at a concrete input: completion text " 0 " trims to the
sentinel, last user text "hi". -/
theorem query_fallback_amended_witness :
    ∃ r, baseRunM costLen "m" 100 (some " 0 ") searchStub
        [{ user := some "hi", bot := none }] none = some r
      ∧ ((some " 0 " : Option String).map jsTrim = some "0" → r.effectiveQuery = some "hi")
      ∧ ((some " 0 " : Option String).map jsTrim ≠ some "0" →
          r.effectiveQuery = (some " 0 " : Option String).map jsTrim) :=
  query_fallback_amended costLen "m" 100 (some " 0 ") searchStub
    [{ user := some "hi", bot := none }] none "hi" (by decide)

/-- C7: system-prompt resolution follows exactly three branches on the
caller's override: a ">>>"-prefixed override injects its remainder plus a
newline, a non-empty unprefixed override is injected verbatim, and an absent
override injects the empty string — in each case into the injected-prompt
placeholder of the base template (`injectPrompt`). -/
theorem prompt_override_three_branches (followUp t : String) :
    (jsStartsWith t ">>>" = true →
      resolveSystemMessage followUp (some t) = injectPrompt followUp (t.drop 3 ++ "\n"))
    ∧ (jsStartsWith t ">>>" = false → t ≠ "" →
      resolveSystemMessage followUp (some t) = injectPrompt followUp t)
    ∧ resolveSystemMessage followUp none = injectPrompt followUp "" := by
  refine ⟨fun h => ?_, fun h hne => ?_, ?_⟩
  · simp [resolveSystemMessage, h]
  · simp [resolveSystemMessage, h, truthy, hne]
  · simp [resolveSystemMessage, truthy]

lemma streamChunks_map_answer (dp : List String) (th : String) :
    ∀ (id : Nat) (l : List (Option String)),
      (streamChunks dp th id l).map (fun c => c.answer) = l.map (fun d => d.getD "") := by
  intro id l
  induction l generalizing id with
  | nil => rfl
  | cons d rest ih => simp [streamChunks, ih]

lemma streamChunks_pos_no_metadata (dp : List String) (th : String) :
    ∀ (l : List (Option String)) (id : Nat), 1 ≤ id →
      ∀ c ∈ streamChunks dp th id l, c.data_points = none ∧ c.thoughts = none := by
  intro l
  induction l with
  | nil => intro id _ c hc; simp [streamChunks] at hc
  | cons d rest ih =>
    intro id hid c hc
    simp only [streamChunks, List.mem_cons] at hc
    rcases hc with hc | hc
    · subst hc
      have : id ≠ 0 := by omega
      simp [this]
    · exact ih (id + 1) (by omega) c hc

/-- C8: in streaming mode, an underlying completion stream of `n` content
deltas yields exactly `n` chunks in order, each chunk's answer text being
that delta's content; every chunk after the first carries no evidence or
diagnostics; the first chunk (when it exists) carries the evidence and
diagnostics of the pipeline run together with the first increment's text;
and concatenating all answer fields reconstructs the full streamed answer. -/
theorem streaming_chunk_shape (cost : Message → Nat) (model : String) (limit : Int)
    (qc : Option String) (search : Option String → SearchOutcome)
    (deltas : List (Option String)) (history : List HistoryMessage)
    (ctx : Option ChatApproachContext) (out : List ApproachResponseChunk)
    (h : runWithStreamingM cost model limit qc search deltas history ctx = some out) :
    out.map (fun c => c.answer) = deltas.map (fun d => d.getD "")
    ∧ String.join (out.map fun c => c.answer)
        = String.join (deltas.map fun d => d.getD "")
    ∧ (∀ c ∈ out.tail, c.data_points = none ∧ c.thoughts = none)
    ∧ ∃ r, baseRunM cost model limit qc search history ctx = some r
        ∧ out.head? = deltas.head?.map fun d =>
            { data_points := some r.dataPoints, thoughts := some r.thoughts,
              answer := d.getD "" } := by
  obtain ⟨r, hr, hout⟩ := Option.map_eq_some'.mp h
  subst hout
  refine ⟨streamChunks_map_answer r.dataPoints r.thoughts 0 deltas,
    congrArg String.join (streamChunks_map_answer r.dataPoints r.thoughts 0 deltas),
    ?_, r, hr, ?_⟩
  · cases deltas with
    | nil => intro c hc; simp [streamChunks] at hc
    | cons d rest =>
      intro c hc
      exact streamChunks_pos_no_metadata r.dataPoints r.thoughts rest 1 (by omega) c hc
  · cases deltas with
    | nil => rfl
    | cons d rest => simp [streamChunks]

/-- Witness for C8 at the spec's concrete scenario: deltas "Hel", "lo",
" there" concatenate to "Hello there". -/
theorem streaming_chunk_shape_witness :
    String.join (((runWithStreamingM costLen "m" 100 (some "x") searchStub
        [some "Hel", some "lo", some " there"] [{ user := some "q", bot := none }]
        none).getD []).map fun c => c.answer) = "Hello there" :=
  ((streaming_chunk_shape costLen "m" 100 (some "x") searchStub
      [some "Hel", some "lo", some " there"] [{ user := some "q", bot := none }] none
      ((runWithStreamingM costLen "m" 100 (some "x") searchStub
        [some "Hel", some "lo", some " there"] [{ user := some "q", bot := none }]
        none).getD []) rfl).2.1).trans (by decide)

/-- C9: whenever the pipeline runs (the history's last turn has user text
`u`), the prompt handed to the query-rewrite completion has as its last
message the user message "Generate search query for: " followed by `u`. -/
theorem query_prompt_last_message (cost : Message → Nat) (model : String) (limit : Int)
    (qc : Option String) (search : Option String → SearchOutcome)
    (history : List HistoryMessage) (ctx : Option ChatApproachContext) (u : String)
    (h : history.getLast?.bind HistoryMessage.user = some u) :
    ∃ r, baseRunM cost model limit qc search history ctx = some r
      ∧ r.queryMessages.getLast?
          = some { role := "user", content := "Generate search query for: " ++ u } := by
  obtain ⟨last, hlast, hu⟩ := Option.bind_eq_some.mp h
  simp only [baseRunM, hlast, hu]
  exact ⟨_, rfl, getMessages_last cost QUERY_PROMPT_TEMPLATE history
    ("Generate search query for: " ++ u) QUERY_PROMPT_FEW_SHOTS _⟩

/-- Witness for C9 at the spec's end-to-end scenario. -/
theorem query_prompt_last_message_witness :
    ∃ r, baseRunM costLen "m" 4096 (some "x") searchStub
        [{ user := some "What happens if a payment error occurs?", bot := none }] none
          = some r
      ∧ r.queryMessages.getLast?
          = some { role := "user", content :=
              "Generate search query for: " ++ "What happens if a payment error occurs?" } :=
  query_prompt_last_message costLen "m" 4096 (some "x") searchStub
    [{ user := some "What happens if a payment error occurs?", bot := none }] none
    "What happens if a payment error occurs?" (by decide)

/-- C10: both pipeline entry points read the last history turn's user text
with no guard; they produce a value exactly when the history is non-empty
and its last turn has user text, and for an empty history the very first
step has no value to read. -/
theorem pipeline_requires_last_user (cost : Message → Nat) (model : String) (limit : Int)
    (qc : Option String) (search : Option String → SearchOutcome)
    (finalContent : Option String) (deltas : List (Option String))
    (history : List HistoryMessage) (ctx : Option ChatApproachContext) :
    ((runM cost model limit qc search finalContent history ctx).isSome
        ↔ (history.getLast?.bind HistoryMessage.user).isSome)
    ∧ ((runWithStreamingM cost model limit qc search deltas history ctx).isSome
        ↔ (history.getLast?.bind HistoryMessage.user).isSome) := by
  have hb : (baseRunM cost model limit qc search history ctx).isSome
      = (history.getLast?.bind HistoryMessage.user).isSome := by
    cases hl : history.getLast? with
    | none => simp [baseRunM, hl]
    | some last =>
      cases hu : last.user with
      | none => simp [baseRunM, hl, hu]
      | some u => simp [baseRunM, hl, hu]
  constructor
  · rw [show (runM cost model limit qc search finalContent history ctx).isSome
        = (baseRunM cost model limit qc search history ctx).isSome by
      simp [runM]]
    rw [hb]
  · rw [show (runWithStreamingM cost model limit qc search deltas history ctx).isSome
        = (baseRunM cost model limit qc search history ctx).isSome by
      simp [runWithStreamingM]]
    rw [hb]
